import Mathlib

/-!
# Verification of the Turing machine simulator (`src/main.py`)

Shallow embedding of the `TuringMachine` class of `main.py`: the machine
record, `reset`, `step`, `run`, the JSON save/load pair, and the default
binary-increment configuration installed by `TMGUIApplication.load_default_tm`.
Symbols and states are Python strings, modelled as `String`; the transition
dictionary is modelled as an association list whose keys carry Python's
dynamic typing (a key is either a `(state, symbol)` tuple or a plain string,
which matters for the JSON round trip, where `str(k)` turns tuple keys into
strings).
-/

/-- A Python dict key as used for the transition table: either a
`(state, symbol)` tuple (the well-typed case, e.g. the default machine and
`parse_transitions`) or a plain string (what `json.load` produces from a
saved file). Tuples and strings are never equal in Python. -/
inductive PyKey where
  | ktup : String → String → PyKey
  | kstr : String → PyKey
deriving DecidableEq

/-- The `TuringMachine` object: the eight constructor fields plus the
mutable run state installed by `reset` (`tape`, `head`, `current_state`,
`history`). `head` is a Python int, so an `Int`. A history entry is the
pre-step `(current_state, ''.join(tape), head)` triple saved by `step`. -/
structure TM where
  states : List String
  input_alphabet : List String
  tape_alphabet : List String
  blank_symbol : String
  transitions : List (PyKey × (String × String × String))
  start_state : String
  accept_states : List String
  reject_states : List String
  tape : List String
  head : Int
  current_state : String
  history : List (String × String × Int)
deriving DecidableEq

/-- Python `x in s` membership test (sets are modelled by their element
lists; only membership is observable). -/
def pyIn (x : String) (s : List String) : Bool :=
  decide (x ∈ s)

/-- `reset(input_string)`: `tape = list(input_string) if input_string else []`,
`head = 0`, `current_state = start_state`, `history = []`. -/
def resetTM (m : TM) (input : String) : TM :=
  { m with
    tape := if input = "" then [] else input.data.map (fun c => c.toString)
    head := 0
    current_state := m.start_state
    history := [] }

/-- The symbol read by `step`:
`self.tape[self.head] if 0 <= self.head < len(self.tape) else self.blank_symbol`. -/
def readSym (m : TM) : String :=
  if 0 ≤ m.head ∧ m.head < (m.tape.length : Int) then
    m.tape.getD m.head.toNat m.blank_symbol
  else
    m.blank_symbol

/-- Lookup in the transition dict (association list, first match — dict
keys are unique in every machine the program builds). -/
def lookupTr : List (PyKey × (String × String × String)) → PyKey →
    Option (String × String × String)
  | [], _ => none
  | (k, v) :: rest, key => if k = key then some v else lookupTr rest key

/-- The mutating tail of `step()` once a transition
`tr = (new_state, write_symbol, direction)` has been found: append the
pre-step snapshot to `history`, write the output symbol (in place when
`0 <= head < len(tape)`, `insert(0, ·)` and rebase `head = 0` when
`head < 0`, `append` otherwise), then move the head (`+1` if
`direction == 'R'` else `-1`) and set the new state. -/
def applyTrans (m : TM) (tr : String × String × String) : TM :=
  let tapeHead :=
    if 0 ≤ m.head ∧ m.head < (m.tape.length : Int) then
      (m.tape.set m.head.toNat tr.2.1, m.head)
    else if m.head < 0 then
      (tr.2.1 :: m.tape, (0 : Int))
    else
      (m.tape ++ [tr.2.1], m.head)
  { m with
    tape := tapeHead.1
    head := if tr.2.2 = "R" then tapeHead.2 + 1 else tapeHead.2 - 1
    current_state := tr.1
    history := m.history ++ [(m.current_state, String.join m.tape, m.head)] }

/-- `step()`: read the symbol under the head, look up
`(current_state, symbol)`; if absent return `False` with no mutation,
otherwise apply the transition and return `True`. -/
def stepTM (m : TM) : TM × Bool :=
  match lookupTr m.transitions (PyKey.ktup m.current_state (readSym m)) with
  | none => (m, false)
  | some tr => (applyTrans m tr, true)

/-- The `while steps < max_steps` loop of `run`, with the remaining
iteration budget `max_steps - steps` as fuel. Each iteration first checks
accept/reject membership and breaks, else calls `step()`, breaking when it
returns `False`; otherwise `steps += 1`. Returns the final machine and the
number of `step()` calls that returned `True` (the final value of `steps`). -/
def runAux : TM → Nat → TM × Nat
  | m, 0 => (m, 0)
  | m, Nat.succ fuel =>
    if pyIn m.current_state m.accept_states || pyIn m.current_state m.reject_states then
      (m, 0)
    else
      let p := stepTM m
      if p.2 then
        let q := runAux p.1 fuel
        (q.1, q.2 + 1)
      else
        (p.1, 0)

/-- `run(max_steps)`: the loop, then
`return self.current_state in self.accept_states`. -/
def runTM (m : TM) (maxSteps : Nat) : TM × Bool :=
  let r := (runAux m maxSteps).1
  (r, pyIn r.current_state r.accept_states)

/-- `__init__(states, input_alphabet, tape_alphabet, blank_symbol,
transitions, start_state, accept_states, reject_states)` followed by the
`reset()` it performs. -/
def initTM (states ia ta : List String) (blank : String)
    (trans : List (PyKey × (String × String × String)))
    (start : String) (acc rej : List String) : TM :=
  { states := states
    input_alphabet := ia
    tape_alphabet := ta
    blank_symbol := blank
    transitions := trans
    start_state := start
    accept_states := acc
    reject_states := rej
    tape := []
    head := 0
    current_state := start
    history := [] }

/-- The transition table of `load_default_tm` (binary incrementer). -/
def defaultTrans : List (PyKey × (String × String × String)) :=
  [ (PyKey.ktup "q0" "0", ("q0", "0", "R")),
    (PyKey.ktup "q0" "1", ("q0", "1", "R")),
    (PyKey.ktup "q0" "_", ("q1", "_", "L")),
    (PyKey.ktup "q1" "0", ("q_accept", "1", "R")),
    (PyKey.ktup "q1" "1", ("q1", "0", "L")),
    (PyKey.ktup "q1" "_", ("q_accept", "1", "R")) ]

/-- The machine built by `TMGUIApplication.load_default_tm`. -/
def defaultTM : TM :=
  initTM ["q0", "q1", "q_accept"] ["0", "1"] ["0", "1", "_"] "_"
    defaultTrans "q0" ["q_accept"] []

/-- Modelled from the spec: `tape_result()` / `Tape.trimmed_content()` does
not exist in `main.py`; per the spec it returns the tape's symbols with
leading and trailing blank symbols removed. -/
def trimBlanks (tape : List String) (blank : String) : List String :=
  ((tape.dropWhile (fun s => s = blank)).reverse.dropWhile (fun s => s = blank)).reverse

/-- Python `str(k)` on a transition-dict key, as used by `save_to_json`:
`str(('q0', '0'))` is the string `('q0', '0')`; `str` of a string is the
string itself. -/
def pyStrKey : PyKey → String
  | PyKey.ktup a b => "(\x27" ++ a ++ "\x27, \x27" ++ b ++ "\x27)"
  | PyKey.kstr s => s

/-- The JSON record written by `save_to_json` and read back by `json.load`:
eight fields, transitions keyed by the stringified composite key. (JSON
turns tuple values into arrays; unpacking a 3-list and a 3-tuple behave
identically in `step`, so values keep the triple type.) -/
structure TMRecord where
  states : List String
  input_alphabet : List String
  tape_alphabet : List String
  blank_symbol : String
  transitions : List (String × (String × String × String))
  start_state : String
  accept_states : List String
  reject_states : List String
deriving DecidableEq

/-- `save_to_json`: `list(...)` on each set and `{str(k): v}` on the
transition dict. -/
def saveToRecord (m : TM) : TMRecord :=
  { states := m.states
    input_alphabet := m.input_alphabet
    tape_alphabet := m.tape_alphabet
    blank_symbol := m.blank_symbol
    transitions := m.transitions.map (fun p => (pyStrKey p.1, p.2))
    start_state := m.start_state
    accept_states := m.accept_states
    reject_states := m.reject_states }

/-- `load_from_json`: `json.load` then `self.__init__(**data)`. Every field
of the prior machine is overwritten; the loaded transition dict is keyed by
the JSON object's *string* keys (no parsing back into tuples happens). -/
def loadFromRecord (r : TMRecord) : TM :=
  initTM r.states r.input_alphabet r.tape_alphabet r.blank_symbol
    (r.transitions.map (fun p => (PyKey.kstr p.1, p.2)))
    r.start_state r.accept_states r.reject_states

/-- The `(state, symbol)` pairs for which a machine's transition dict has a
tuple-keyed entry — the domain `step`'s lookup can ever hit. -/
def tupleDomain (m : TM) : List (String × String) :=
  m.transitions.filterMap
    (fun p => match p.1 with
      | PyKey.ktup a b => some (a, b)
      | PyKey.kstr _ => none)

/-- A dynamically-typed JSON field value, as far as `set(...)` conversion in
`__init__` is concerned: `set` of an array or of a string succeeds
(a string iterates its characters), `set` of a number raises `TypeError`. -/
inductive JVal where
  | jstr : String → JVal
  | jnum : Int → JVal
  | jarr : List String → JVal
deriving DecidableEq

/-- Python `set(v)`, `none` modelling a raised `TypeError`. -/
def pySet : JVal → Option (List String)
  | JVal.jarr xs => some xs
  | JVal.jstr s => some (s.data.map (fun c => c.toString))
  | JVal.jnum _ => none

/-- A parsed JSON record with exactly the eight expected keys but
dynamically-typed set-valued fields (the case where `__init__(**data)` is
entered; wrong key sets raise `TypeError` before any assignment). -/
structure RawRecord where
  states : JVal
  input_alphabet : JVal
  tape_alphabet : JVal
  blank_symbol : String
  transitions : List (String × (String × String × String))
  start_state : String
  accept_states : JVal
  reject_states : JVal
deriving DecidableEq

/-- `load_from_json` on a parsed record: `__init__` assigns the fields in
order (`states`, `input_alphabet`, `tape_alphabet`, `blank_symbol`,
`transitions`, `start_state`, `accept_states`, `reject_states`), then calls
`reset()`. A `set(...)` conversion that raises aborts the sequence,
leaving the assignments already made in place (`false` = exception
propagated to the caller). -/
def loadRaw (m : TM) (r : RawRecord) : TM × Bool :=
  match pySet r.states with
  | none => (m, false)
  | some st =>
    let m1 := { m with states := st }
    match pySet r.input_alphabet with
    | none => (m1, false)
    | some ia =>
      let m2 := { m1 with input_alphabet := ia }
      match pySet r.tape_alphabet with
      | none => (m2, false)
      | some ta =>
        let m3 := { m2 with
          tape_alphabet := ta
          blank_symbol := r.blank_symbol
          transitions := r.transitions.map (fun p => (PyKey.kstr p.1, p.2))
          start_state := r.start_state }
        match pySet r.accept_states with
        | none => (m3, false)
        | some acc =>
          let m4 := { m3 with accept_states := acc }
          match pySet r.reject_states with
          | none => (m4, false)
          | some rej => (resetTM { m4 with reject_states := rej } "", true)

/-- Normalize every transition's direction: `'R'` stays, anything else
becomes `'L'` (the move `step` actually performs for it). -/
def normDirs (m : TM) : TM :=
  { m with
    transitions := m.transitions.map
      (fun p => (p.1, (p.2.1, p.2.2.1, if p.2.2.2 = "R" then "R" else "L"))) }

/-- The observable effect of a `step` call: the run state it may mutate
plus its return value (the configuration fields are read-only for `step`). -/
def stepProj (p : TM × Bool) :
    List String × Int × String × List (String × String × Int) × Bool :=
  (p.1.tape, p.1.head, p.1.current_state, p.1.history, p.2)

/-- `n` consecutive `step()` calls. -/
def stepN (m : TM) : Nat → TM
  | 0 => m
  | Nat.succ k => (stepTM (stepN m k)).1

/-- One call in a sequence of machine operations: a single `step()` or a
`run(max_steps)`. -/
inductive Op where
  | opStep : Op
  | opRun : Nat → Op
deriving DecidableEq

/-- Execute one operation, returning the machine and the number of
`step()` invocations that returned `True` during it. -/
def execOp (m : TM) : Op → TM × Nat
  | Op.opStep => let p := stepTM m; (p.1, if p.2 then 1 else 0)
  | Op.opRun n => runAux m n

/-- Execute a sequence of operations, accumulating the count of successful
`step()` invocations. -/
def execOps : TM → List Op → TM × Nat
  | m, [] => (m, 0)
  | m, o :: os =>
    let p := execOp m o
    let q := execOps p.1 os
    (q.1, p.2 + q.2)

/-- A machine whose start state rejects immediately. -/
def rejectTM : TM :=
  initTM ["q0"] [] ["_"] "_" [] "q0" [] ["q0"]

/-- A machine that loops forever moving right over blanks. -/
def loopTM : TM :=
  initTM ["q0"] [] ["_"] "_" [(PyKey.ktup "q0" "_", ("q0", "_", "R"))] "q0" [] []

/-- A machine whose single transition fires on the blank read at head 0 of
the empty tape, writes `w` and moves Left. -/
def leftWriteTM : TM :=
  initTM ["q0", "q1"] [] ["w", "_"] "_"
    [(PyKey.ktup "q0" "_", ("q1", "w", "L"))] "q0" [] []

/-- A machine whose single transition carries the direction `"X"`,
outside `{L, R}`. -/
def badDirTM : TM :=
  initTM ["q0", "q1"] [] ["x", "_"] "_"
    [(PyKey.ktup "q0" "_", ("q1", "x", "X"))] "q0" [] []

/-- A record whose `states` field converts but whose `input_alphabet`
field is a number, so `set(input_alphabet)` raises mid-`__init__`. -/
def badRawRecord : RawRecord :=
  { states := JVal.jarr ["a"]
    input_alphabet := JVal.jnum 5
    tape_alphabet := JVal.jarr ["_"]
    blank_symbol := "_"
    transitions := []
    start_state := "a"
    accept_states := JVal.jarr []
    reject_states := JVal.jarr [] }

/-- A machine whose start state accepts immediately. -/
def acceptTM : TM :=
  initTM ["q0"] [] ["_"] "_" [] "q0" ["q0"] []

/-! ## Helper lemmas -/

theorem stepTM_eq_none (m : TM)
    (h : lookupTr m.transitions (PyKey.ktup m.current_state (readSym m)) = none) :
    stepTM m = (m, false) := by
  unfold stepTM
  rw [h]

theorem stepTM_eq_some (m : TM) (tr : String × String × String)
    (h : lookupTr m.transitions (PyKey.ktup m.current_state (readSym m)) = some tr) :
    stepTM m = (applyTrans m tr, true) := by
  unfold stepTM
  rw [h]

theorem applyTrans_history (m : TM) (tr : String × String × String) :
    (applyTrans m tr).history =
      m.history ++ [(m.current_state, String.join m.tape, m.head)] := by
  rfl

theorem stepTM_history_length (m : TM) :
    (stepTM m).1.history.length =
      m.history.length + (if (stepTM m).2 then 1 else 0) := by
  cases h : lookupTr m.transitions (PyKey.ktup m.current_state (readSym m)) with
  | none => rw [stepTM_eq_none m h]; simp
  | some tr => rw [stepTM_eq_some m tr h]; simp [applyTrans_history]

theorem stepTM_accept_states (m : TM) :
    (stepTM m).1.accept_states = m.accept_states := by
  cases h : lookupTr m.transitions (PyKey.ktup m.current_state (readSym m)) with
  | none => rw [stepTM_eq_none m h]
  | some tr => rw [stepTM_eq_some m tr h]; rfl

theorem runAux_history_length : ∀ (n : Nat) (m : TM),
    (runAux m n).1.history.length = m.history.length + (runAux m n).2 := by
  intro n
  induction n with
  | zero => intro m; simp [runAux]
  | succ k ih =>
    intro m
    by_cases hterm :
        (pyIn m.current_state m.accept_states || pyIn m.current_state m.reject_states) = true
    · simp [runAux, hterm]
    · cases hs : (stepTM m).2 with
      | false =>
        have h1 := stepTM_history_length m
        rw [hs] at h1
        simp only [runAux, hterm, if_false, hs]
        simpa using h1
      | true =>
        have h1 := stepTM_history_length m
        rw [hs] at h1
        have h2 := ih (stepTM m).1
        simp only [runAux, hterm, if_false, hs]
        simp at h1 ⊢
        omega

theorem runAux_accept_states : ∀ (n : Nat) (m : TM),
    (runAux m n).1.accept_states = m.accept_states := by
  intro n
  induction n with
  | zero => intro m; simp [runAux]
  | succ k ih =>
    intro m
    by_cases hterm :
        (pyIn m.current_state m.accept_states || pyIn m.current_state m.reject_states) = true
    · simp [runAux, hterm]
    · cases hs : (stepTM m).2 with
      | false => simp [runAux, hterm, hs, stepTM_accept_states]
      | true =>
        simp only [runAux, hterm, if_false, hs]
        simp only [Bool.false_eq_true, if_false, if_true]
        rw [ih (stepTM m).1, stepTM_accept_states]

theorem applyTrans_head_inv (m : TM) (tr : String × String × String)
    (h2 : m.head ≤ (m.tape.length : Int)) :
    -1 ≤ (applyTrans m tr).head ∧
    (applyTrans m tr).head ≤ ((applyTrans m tr).tape.length : Int) := by
  unfold applyTrans
  by_cases hc : 0 ≤ m.head ∧ m.head < (m.tape.length : Int)
  · by_cases hd : tr.2.2 = "R" <;> (simp [hc, hd, List.length_set]; try omega)
  · by_cases hneg : m.head < 0
    · by_cases hd : tr.2.2 = "R" <;> (simp [hc, hneg, hd]; try omega)
    · by_cases hd : tr.2.2 = "R" <;> (simp [hc, hneg, hd]; try omega)

theorem stepTM_head_inv (m : TM)
    (h1 : -1 ≤ m.head) (h2 : m.head ≤ (m.tape.length : Int)) :
    -1 ≤ (stepTM m).1.head ∧ (stepTM m).1.head ≤ ((stepTM m).1.tape.length : Int) := by
  cases h : lookupTr m.transitions (PyKey.ktup m.current_state (readSym m)) with
  | none => rw [stepTM_eq_none m h]; exact ⟨h1, h2⟩
  | some tr => rw [stepTM_eq_some m tr h]; exact applyTrans_head_inv m tr h2

theorem lookupTr_map_val (f : String × String × String → String × String × String) :
    ∀ (l : List (PyKey × (String × String × String))) (k : PyKey),
    lookupTr (l.map (fun p => (p.1, f p.2))) k = (lookupTr l k).map f := by
  intro l
  induction l with
  | nil => intro k; simp [lookupTr]
  | cons p rest ih =>
    intro k
    by_cases hk : p.1 = k <;> simp [lookupTr, hk, ih]

theorem execOp_history (m : TM) (o : Op) :
    (execOp m o).1.history.length = m.history.length + (execOp m o).2 := by
  cases o with
  | opStep =>
    have h := stepTM_history_length m
    cases hs : (stepTM m).2 <;> rw [hs] at h <;> simp [execOp, hs] <;> simpa using h
  | opRun n => exact runAux_history_length n m

theorem execOps_history : ∀ (ops : List Op) (m : TM),
    (execOps m ops).1.history.length = m.history.length + (execOps m ops).2 := by
  intro ops
  induction ops with
  | nil => intro m; simp [execOps]
  | cons o os ih =>
    intro m
    have h1 := execOp_history m o
    have h2 := ih (execOp m o).1
    simp only [execOps]
    omega

/-! ## The claims -/

/-- C1: the claim says `decode(encode(config))` preserves the transition
function's `(state, symbol)` domain pairs. It does not: `save_to_json`
writes the dict with `str(k)` keys such as `('q0', '0')`, and
`load_from_json` installs those *string* keys unparsed, so the loaded
machine has no tuple-keyed entry at all and `step`'s tuple lookup misses
every pair that the original machine had — here evaluated on the default
binary-increment machine. -/
theorem c1_save_load_breaks_transition_domain :
    tupleDomain (loadFromRecord (saveToRecord defaultTM)) = [] ∧
    tupleDomain defaultTM ≠ [] ∧
    lookupTr (loadFromRecord (saveToRecord defaultTM)).transitions
      (PyKey.ktup "q0" "1") = none ∧
    lookupTr defaultTM.transitions (PyKey.ktup "q0" "1") = some ("q0", "1", "R") := by
  decide

/-- C2 counterexample: a machine that halts in a reject state and a machine
that exhausts `max_steps = 5` while still able to step return the *same*
value from `run`, so the claimed five mutually distinguishable outcomes do
not exist — `run` returns only the boolean `current_state in accept_states`
and StepLimitExceeded is indistinguishable from Rejected. -/
theorem c2_outcomes_indistinguishable :
    (runTM rejectTM 5).2 = (runTM loopTM 5).2 ∧
    pyIn rejectTM.current_state rejectTM.reject_states = true ∧
    (runAux rejectTM 5).2 = 0 ∧
    (runAux loopTM 5).2 = 5 ∧
    pyIn (runTM loopTM 5).1.current_state loopTM.accept_states = false ∧
    pyIn (runTM loopTM 5).1.current_state loopTM.reject_states = false ∧
    (stepTM (runTM loopTM 5).1).2 = true := by
  decide

/-- C2 as amended: for every machine and every step bound, `run` terminates
and returns a single boolean value, true exactly when the final current
state is in the machine's accept set; all other terminations (reject, halt,
step limit) yield `false` and are not distinguishable from the result. -/
theorem c2_run_returns_acceptance_boolean (m : TM) (n : Nat) :
    (runTM m n).2 = pyIn (runTM m n).1.current_state m.accept_states := by
  simp only [runTM]
  rw [runAux_accept_states n m]

/-- C3 counterexample: from an empty tape with head 0, the left-moving
transition of `leftWriteTM` writes `w` (appended at storage index 0) but
leaves the head at `-1`, a negative index — not at 0 as the claim states. -/
theorem c3_head_goes_negative :
    leftWriteTM.tape = [] ∧ leftWriteTM.head = 0 ∧
    lookupTr leftWriteTM.transitions
      (PyKey.ktup leftWriteTM.current_state (readSym leftWriteTM)) =
      some ("q1", "w", "L") ∧
    (stepTM leftWriteTM).1.tape = ["w"] ∧
    (stepTM leftWriteTM).1.head = -1 ∧
    ¬ (stepTM leftWriteTM).1.head = 0 := by
  decide

/-- C3 as amended: starting from an empty tape with head 0, a step whose
transition writes `w` and moves Left yields a tape of length 1 whose single
cell holds `w`, with the head at `-1` (the conceptual cell left of storage;
it is rebased to 0 only by a later out-of-bounds write). -/
theorem c3_left_write_on_empty (m : TM) (ns ws : String)
    (htape : m.tape = []) (hhead : m.head = 0)
    (hlook : lookupTr m.transitions
      (PyKey.ktup m.current_state m.blank_symbol) = some (ns, ws, "L")) :
    (stepTM m).1.tape = [ws] ∧ (stepTM m).1.head = -1 := by
  have hread : readSym m = m.blank_symbol := by simp [readSym, htape, hhead]
  rw [stepTM_eq_some m (ns, ws, "L") (by rw [hread]; exact hlook)]
  unfold applyTrans
  simp [htape, hhead]

/-- C3 witness: the amended statement evaluated on `leftWriteTM`. -/
theorem c3_left_write_on_empty_witness :
    (stepTM leftWriteTM).1.tape = ["w"] ∧ (stepTM leftWriteTM).1.head = -1 :=
  c3_left_write_on_empty leftWriteTM "q1" "w" rfl rfl (by decide)

/-- C4 counterexample: `badDirTM`'s only transition carries direction
`"X"`, outside `{L, R}`; no validation rejects it anywhere — `step`
executes it, returns `True`, installs the new state and moves the head
exactly one cell to the *left*. -/
theorem c4_unknown_direction_executes :
    lookupTr badDirTM.transitions
      (PyKey.ktup badDirTM.current_state (readSym badDirTM)) =
      some ("q1", "x", "X") ∧
    ¬ ("X" = "L" ∨ "X" = "R") ∧
    (stepTM badDirTM).2 = true ∧
    (stepTM badDirTM).1.current_state = "q1" ∧
    (stepTM badDirTM).1.head = badDirTM.head - 1 := by
  decide

/-- C4 as amended: there is no InvalidDirection failure and no validation;
`step` silently executes a transition entry whatever its direction string
is, treating every direction other than `"R"` exactly as a Left move —
normalizing all non-R directions of a machine's table to `"L"` leaves every
observable effect of `step` (tape, head, state, history, return value)
unchanged. -/
theorem c4_nonR_is_left (m : TM) :
    stepProj (stepTM (normDirs m)) = stepProj (stepTM m) := by
  cases h : lookupTr m.transitions (PyKey.ktup m.current_state (readSym m)) with
  | none =>
    have h2 : lookupTr (normDirs m).transitions
        (PyKey.ktup (normDirs m).current_state (readSym (normDirs m))) = none := by
      have hmv := lookupTr_map_val
        (fun v => (v.1, v.2.1, if v.2.2 = "R" then "R" else "L")) m.transitions
        (PyKey.ktup m.current_state (readSym m))
      rw [h] at hmv
      exact hmv
    rw [stepTM_eq_none _ h2, stepTM_eq_none m h]
    rfl
  | some tr =>
    obtain ⟨ns, ws, d⟩ := tr
    have h2 : lookupTr (normDirs m).transitions
        (PyKey.ktup (normDirs m).current_state (readSym (normDirs m))) =
        some (ns, ws, if d = "R" then "R" else "L") := by
      have hmv := lookupTr_map_val
        (fun v => (v.1, v.2.1, if v.2.2 = "R" then "R" else "L")) m.transitions
        (PyKey.ktup m.current_state (readSym m))
      rw [h] at hmv
      exact hmv
    rw [stepTM_eq_some _ _ h2, stepTM_eq_some m _ h]
    by_cases hd : d = "R"
    · subst hd; simp [stepProj, applyTrans, normDirs]
    · simp [stepProj, applyTrans, normDirs, hd]

/-- C5 counterexample: decoding `badRawRecord` (whose `input_alphabet`
field is the number 5, so `set(input_alphabet)` raises mid-`__init__`)
into the default machine fails, yet leaves the machine's `states` field
already overwritten with the record's — decoding is not atomic. -/
theorem c5_partial_mutation :
    (loadRaw defaultTM badRawRecord).2 = false ∧
    (loadRaw defaultTM badRawRecord).1.states = ["a"] ∧
    defaultTM.states = ["q0", "q1", "q_accept"] ∧
    ¬ (loadRaw defaultTM badRawRecord).1 = defaultTM := by
  decide

/-- C5 as amended: a decoding failure inside `__init__` leaves the
configuration fields assigned before the failing `set()` conversion
mutated, but the run state — tape, head, current state and history —
is always left exactly as it was, because `reset()` only runs after
every assignment has succeeded. -/
theorem c5_failure_preserves_run_state (m : TM) (r : RawRecord)
    (h : (loadRaw m r).2 = false) :
    (loadRaw m r).1.tape = m.tape ∧ (loadRaw m r).1.head = m.head ∧
    (loadRaw m r).1.current_state = m.current_state ∧
    (loadRaw m r).1.history = m.history := by
  unfold loadRaw at h ⊢
  cases hs1 : pySet r.states with
  | none => simp only [hs1]; simp
  | some st =>
    simp only [hs1] at h ⊢
    cases hs2 : pySet r.input_alphabet with
    | none => simp only [hs2]; simp
    | some ia =>
      simp only [hs2] at h ⊢
      cases hs3 : pySet r.tape_alphabet with
      | none => simp only [hs3]; simp
      | some ta =>
        simp only [hs3] at h ⊢
        cases hs4 : pySet r.accept_states with
        | none => simp only [hs4]; simp
        | some acc =>
          simp only [hs4] at h ⊢
          cases hs5 : pySet r.reject_states with
          | none => simp only [hs5]; simp
          | some rej => simp only [hs5] at h; simp at h

/-- C5 witness: the amended statement evaluated at the concrete failing
record against the default machine. -/
theorem c5_failure_preserves_run_state_witness :
    (loadRaw defaultTM badRawRecord).1.tape = defaultTM.tape ∧
    (loadRaw defaultTM badRawRecord).1.head = defaultTM.head ∧
    (loadRaw defaultTM badRawRecord).1.current_state = defaultTM.current_state ∧
    (loadRaw defaultTM badRawRecord).1.history = defaultTM.history :=
  c5_failure_preserves_run_state defaultTM badRawRecord (by decide)

/-- C6: the default binary-increment machine run on input `"1011"` with the
default step bound terminates accepted (run returns `True`, final state
`q_accept`) and its tape, with leading and trailing blanks trimmed, reads
`"1100"`. -/
theorem c6_binary_increment :
    (runTM (resetTM defaultTM "1011") 100000).2 = true ∧
    (runTM (resetTM defaultTM "1011") 100000).1.current_state = "q_accept" ∧
    String.join (trimBlanks (runTM (resetTM defaultTM "1011") 100000).1.tape "_") = "1100" :=
  ⟨rfl, rfl, rfl⟩

/-- C7: when the current state is in the accept set or the reject set,
`run` terminates at once, with the machine (tape, head, state, history)
exactly as it was and zero steps consumed — the membership check precedes
every step attempt. -/
theorem c7_terminal_state_stops (m : TM) (n : Nat)
    (h : pyIn m.current_state m.accept_states = true ∨
         pyIn m.current_state m.reject_states = true) :
    runTM m n = (m, pyIn m.current_state m.accept_states) ∧ (runAux m n).2 = 0 := by
  have hcond :
      (pyIn m.current_state m.accept_states || pyIn m.current_state m.reject_states) = true := by
    rcases h with h | h <;> simp [h]
  cases n with
  | zero => exact ⟨rfl, rfl⟩
  | succ k => constructor <;> simp [runTM, runAux, hcond]

/-- C7 witness: a machine whose start state accepts, run for 7 steps. -/
theorem c7_terminal_state_stops_witness :
    runTM acceptTM 7 = (acceptTM, pyIn acceptTM.current_state acceptTM.accept_states) ∧
    (runAux acceptTM 7).2 = 0 :=
  c7_terminal_state_stops acceptTM 7 (Or.inl (by decide))

/-- C8: both directions of the claim. First conjunct: `step` returns
`false` exactly when the transition table has no entry for the current
state and the symbol under the head (blank when the head is outside
storage) — so a missing entry is the sole condition for a `false` return.
Second conjunct: the table misses exactly when `step` returns `false`
*and* leaves the machine — state, tape, head and history — completely
unchanged; its right-to-left direction is the claim's first half, that a
missing entry always yields `false` with no mutation at all. -/
theorem c8_step_false_iff_no_transition (m : TM) :
    (((stepTM m).2 = false) ↔
      lookupTr m.transitions (PyKey.ktup m.current_state (readSym m)) = none) ∧
    ((stepTM m = (m, false)) ↔
      lookupTr m.transitions (PyKey.ktup m.current_state (readSym m)) = none) := by
  cases h : lookupTr m.transitions (PyKey.ktup m.current_state (readSym m)) with
  | none => rw [stepTM_eq_none m h]; simp
  | some tr => rw [stepTM_eq_some m tr h]; simp

/-- C9: after a reset and any sequence of `step()` and `run()` calls, the
history log's length equals the number of `step()` invocations in that
sequence that returned `True`. -/
theorem c9_history_len_eq_successful_steps (m0 : TM) (input : String) (ops : List Op) :
    (execOps (resetTM m0 input) ops).1.history.length =
      (execOps (resetTM m0 input) ops).2 := by
  have h := execOps_history ops (resetTM m0 input)
  simpa [resetTM] using h

/-- C10: after `reset` the head is 0, and after any number of further
`step()` calls the head never drops below `-1` and never exceeds the tape's
materialized length — so every write lands at an index between 0 and
`len(tape)` and out-of-bounds writes rebase the head into storage. -/
theorem c10_head_bounds (m0 : TM) (input : String) (n : Nat) :
    (resetTM m0 input).head = 0 ∧
    -1 ≤ (stepN (resetTM m0 input) n).head ∧
    (stepN (resetTM m0 input) n).head ≤ ((stepN (resetTM m0 input) n).tape.length : Int) := by
  refine ⟨rfl, ?_⟩
  induction n with
  | zero =>
    constructor
    · simp [stepN, resetTM]
    · simp [stepN, resetTM]
  | succ k ih => simpa [stepN] using stepTM_head_inv _ ih.1 ih.2
